import Mathlib

/-!
Verification of the sliding-window rate limiter (undici rate-limit interceptor).

The development shallowly embeds the repository's JavaScript source:

* `InMemoryStore` embeds `lib/store/memory.js` (its full source is staged
  in the repository alongside the header tests, and `add`/`cleanup` are
  additionally quoted verbatim in the race-condition analysis document):
  the backing `cache` is a map from identifier to the ordered list of
  recorded timestamps.
* The decision engine embeds `index.js` (`isRateLimited`,
  `recordRequest`, `getRateLimitInfo`, `checkRateLimit`), with JS numbers
  represented as `Int` (every value involved is integral: `Date.now()`
  milliseconds, counts, and configured limits/windows).
* The dynamic-configuration engine variant embeds the resolver-based
  source file (`resolveMaxRequests` / `resolveWindowMs`), with each
  resolver modelled as a call-indexed oracle so that the number and the
  order of resolver invocations inside one check are observable.
* `Math.ceil(x / 1000)` on integral `x` is embedded as
  `(x + 999) / 1000` on `Int` (`/` is floor division for a positive
  divisor, and the ceiling of a quotient is the floor of the shifted
  numerator).
-/

namespace RateLimit

/-- The backing map of the in-memory store (`this.cache`): an association
list from identifier to the ordered timestamp sequence. The first binding
for a key is the visible one. -/
abbrev Cache := List (String × List Int)

/-- `cache.get(identifier)`: first binding for the key, if any. -/
def cacheGet : Cache → String → Option (List Int)
  | [], _ => none
  | (k, v) :: rest, i => if k = i then some v else cacheGet rest i

/-- `cache.set(identifier, value)`: replace the visible binding, or append
a fresh one when the key is absent. -/
def cacheSet : Cache → String → List Int → Cache
  | [], i, v => [(i, v)]
  | (k, w) :: rest, i, v =>
    if k = i then (i, v) :: rest else (k, w) :: cacheSet rest i v

/-- `cache.delete(identifier)`: remove the bindings for the key. -/
def cacheDelete : Cache → String → Cache
  | [], _ => []
  | (k, w) :: rest, i =>
    if k = i then cacheDelete rest i else (k, w) :: cacheDelete rest i

/-- The in-memory store (`lib/store/memory.js`): per-identifier ordered
timestamp sequences. -/
structure InMemoryStore where
  cache : Cache
deriving Repr, DecidableEq

/-- The store with no identifiers tracked. -/
def InMemoryStore.emptyStore : InMemoryStore := ⟨[]⟩

/-- `add(timestamp, identifier)` from `lib/store/memory.js`:
read `cache.get(identifier) || []`, push the timestamp, write back. -/
def InMemoryStore.add (s : InMemoryStore) (timestamp : Int)
    (identifier : String) : InMemoryStore :=
  let requests := (cacheGet s.cache identifier).getD []
  ⟨cacheSet s.cache identifier (requests ++ [timestamp])⟩

/-- `cleanup(cutoff, identifier)` from `lib/store/memory.js`: when the
identifier is tracked, keep the timestamps with `t > cutoff`; write the
filtered list back when non-empty, otherwise delete the identifier's
entry. -/
def InMemoryStore.cleanup (s : InMemoryStore) (cutoff : Int)
    (identifier : String) : InMemoryStore :=
  match cacheGet s.cache identifier with
  | none => s
  | some requests =>
    let filtered := requests.filter (fun t => decide (cutoff < t))
    if 0 < filtered.length then ⟨cacheSet s.cache identifier filtered⟩
    else ⟨cacheDelete s.cache identifier⟩

/-- `count(identifier)` from `lib/store/memory.js`:
`requests ? requests.length : 0` — the sequence length when the
identifier is tracked (an empty array is truthy in JS and reports its own
length 0), else 0. -/
def InMemoryStore.count (s : InMemoryStore) (identifier : String) : Nat :=
  ((cacheGet s.cache identifier).getD []).length

/-- `getAll(identifier)` from `lib/store/memory.js`:
`this.cache.get(identifier) || []` — the full ordered sequence (a tracked
empty array is truthy and returned as is), or `[]` when absent. -/
def InMemoryStore.getAll (s : InMemoryStore) (identifier : String) : List Int :=
  (cacheGet s.cache identifier).getD []

/-- Whether the store currently tracks the identifier at all (the
identifier has an entry in the backing cache). -/
def InMemoryStore.hasKey (s : InMemoryStore) (identifier : String) : Bool :=
  (cacheGet s.cache identifier).isSome

/-- `Math.ceil(x / 1000)` for an integral JS number `x`: the ceiling of the
rational quotient, computed as a floor division of the shifted numerator. -/
def ceilDiv1000 (x : Int) : Int := (x + 999) / 1000

/-- Resolved configuration of the interceptor (`index.js` constructor
fields): `maxRequests`, `windowMs`, whether response headers are added,
and whether an `onRateLimitExceeded` sink is configured. -/
structure Config where
  maxRequests : Int
  windowMs : Int
  includeHeaders : Bool
  hasCallback : Bool
deriving Repr, DecidableEq

/-- `cleanupOldRequests` from `index.js`: cleanup with
`cutoff = now - windowMs` (a store failure would be caught; the in-memory
store cannot fail, the fallible variant appears further below). -/
def cleanupOldRequests (cfg : Config) (now : Int) (s : InMemoryStore)
    (i : String) : InMemoryStore :=
  s.cleanup (now - cfg.windowMs) i

/-- `isRateLimited` from `index.js`: cleanup, count, then test whether
admitting one more request would exceed the limit
(`(count + 1) > maxRequests`). Returns the decision and the store state
after the cleanup. -/
def isRateLimited (cfg : Config) (now : Int) (s : InMemoryStore)
    (i : String) : Bool × InMemoryStore :=
  let s1 := cleanupOldRequests cfg now s i
  (decide ((s1.count i : Int) + 1 > cfg.maxRequests), s1)

/-- `recordRequest` from `index.js`: add the current timestamp. -/
def recordRequest (now : Int) (s : InMemoryStore) (i : String) :
    InMemoryStore :=
  s.add now i

/-- `getOldestTimestamp` from `index.js`: `null` when no timestamps are
stored, otherwise `Math.min(...requests)`. -/
def getOldestTimestamp (s : InMemoryStore) (i : String) : Option Int :=
  match s.getAll i with
  | [] => none
  | t :: ts => some (ts.foldl min t)

/-- Quota metadata returned on admit (`{ limit, remaining, reset }`). -/
structure RateLimitInfo where
  limit : Int
  remaining : Int
  reset : Int
deriving Repr, DecidableEq

/-- `getRateLimitInfo` from `index.js`. The JS code branches on
`if (oldestTimestamp)`, which is falsy both for `null` and for the number
`0`, so an oldest timestamp of `0` takes the now-based fallback branch. -/
def getRateLimitInfo (cfg : Config) (now : Int) (s : InMemoryStore)
    (i : String) : RateLimitInfo :=
  let currentCount : Int := s.count i
  let remaining := max 0 (cfg.maxRequests - currentCount)
  let reset : Int :=
    match getOldestTimestamp s i with
    | some oldest =>
      if oldest = 0 then ceilDiv1000 (now + cfg.windowMs)
      else ceilDiv1000 (oldest + cfg.windowMs)
    | none => ceilDiv1000 (now + cfg.windowMs)
  { limit := cfg.maxRequests, remaining := remaining, reset := reset }

/-- The structured denial error built on the deny path. -/
structure DenialError where
  message : String
  code : String
  statusCode : Int
  identifier : String
deriving Repr, DecidableEq

/-- The payload delivered to the `onRateLimitExceeded` sink. -/
structure DenialPayload where
  maxRequests : Int
  windowMs : Int
  currentRequests : Int
  identifier : String
deriving Repr, DecidableEq

/-- Outcome of one rate check: a denial (with the payload the notification
sink received, when one is configured), or an admit (with quota metadata
when headers are enabled). -/
inductive CheckResult where
  | denied (err : DenialError) (notified : Option DenialPayload)
  | admitted (info : Option RateLimitInfo)
deriving Repr, DecidableEq

/-- The denial message with the resolved values substituted. -/
def rateLimitMessage (cfg : Config) : String :=
  "Rate limit exceeded: " ++ toString cfg.maxRequests ++ " requests per "
    ++ toString cfg.windowMs ++ "ms"

/-- `checkRateLimit` from `index.js`: run `isRateLimited`; when limited,
re-read the current count, notify the sink when configured, and return
the structured denial; otherwise record the request and (when headers are
enabled) compute the quota metadata. -/
def checkRateLimit (cfg : Config) (now : Int) (s : InMemoryStore)
    (i : String) : CheckResult × InMemoryStore :=
  let r := isRateLimited cfg now s i
  if r.1 then
    let currentCount : Int := r.2.count i
    let notified :=
      if cfg.hasCallback then
        some { maxRequests := cfg.maxRequests, windowMs := cfg.windowMs,
               currentRequests := currentCount, identifier := i }
      else (none : Option DenialPayload)
    let err : DenialError :=
      { message := rateLimitMessage cfg, code := "RATE_LIMIT_EXCEEDED",
        statusCode := 429, identifier := i }
    (CheckResult.denied err notified, r.2)
  else
    let s2 := recordRequest now r.2 i
    if cfg.includeHeaders then
      (CheckResult.admitted (some (getRateLimitInfo cfg now s2 i)), s2)
    else
      (CheckResult.admitted none, s2)

/-- Whether a check outcome is a denial. -/
def CheckResult.isDenied : CheckResult → Bool
  | .denied _ _ => true
  | .admitted _ => false

/-- Whether a check outcome is an admit. -/
def CheckResult.isAdmitted : CheckResult → Bool
  | .denied _ _ => false
  | .admitted _ => true

/-- The `remaining` quota reported on an admit with headers enabled. -/
def CheckResult.remainingInfo : CheckResult → Option Int
  | .admitted (some info) => some info.remaining
  | _ => none

/-- Failure injection for the store transport: a distinct flag per store
call site of one check (the store itself is in-memory in the embedding,
but the engine's error handling is call-site based: cleanup failures are
caught, every other store failure is rethrown to the caller). -/
structure FailFlags where
  cleanupFails : Bool
  countFailsDecision : Bool
  countFailsDeny : Bool
  addFails : Bool
  countFailsInfo : Bool
  getAllFails : Bool
deriving Repr, DecidableEq

/-- No store call fails. -/
def FailFlags.noFail : FailFlags := ⟨false, false, false, false, false, false⟩

/-- `cleanupOldRequests` from `index.js` with failure injection: the
`try/catch` swallows a cleanup failure (it is only logged) and the check
proceeds with the store state as it currently is. -/
def cleanupOldRequestsF (cfg : Config) (now : Int) (ff : FailFlags)
    (s : InMemoryStore) (i : String) : InMemoryStore :=
  if ff.cleanupFails then s else s.cleanup (now - cfg.windowMs) i

/-- `isRateLimited` from `index.js` with failure injection: a `count`
failure is rethrown. -/
def isRateLimitedF (cfg : Config) (now : Int) (ff : FailFlags)
    (s : InMemoryStore) (i : String) : Except Unit Bool × InMemoryStore :=
  let s1 := cleanupOldRequestsF cfg now ff s i
  if ff.countFailsDecision then (Except.error (), s1)
  else (Except.ok (decide ((s1.count i : Int) + 1 > cfg.maxRequests)), s1)

/-- `checkRateLimit` from `index.js` with failure injection. On the deny
path `getCurrentCount` re-reads the count (its failure is rethrown); on
the admit path `add` failures are rethrown, and with headers enabled the
metadata step re-reads `count` and then `getAll` (each failure
rethrown). The returned store is the state reached when the check ends,
normally or with an error. -/
def checkRateLimitF (cfg : Config) (now : Int) (ff : FailFlags)
    (s : InMemoryStore) (i : String) :
    Except Unit CheckResult × InMemoryStore :=
  let r := isRateLimitedF cfg now ff s i
  match r.1 with
  | Except.error e => (Except.error e, r.2)
  | Except.ok limited =>
    if limited then
      if ff.countFailsDeny then (Except.error (), r.2)
      else
        let currentCount : Int := r.2.count i
        let notified :=
          if cfg.hasCallback then
            some { maxRequests := cfg.maxRequests, windowMs := cfg.windowMs,
                   currentRequests := currentCount, identifier := i }
          else (none : Option DenialPayload)
        let err : DenialError :=
          { message := rateLimitMessage cfg, code := "RATE_LIMIT_EXCEEDED",
            statusCode := 429, identifier := i }
        (Except.ok (CheckResult.denied err notified), r.2)
    else
      if ff.addFails then (Except.error (), r.2)
      else
        let s2 := recordRequest now r.2 i
        if cfg.includeHeaders then
          if ff.countFailsInfo then (Except.error (), s2)
          else if ff.getAllFails then (Except.error (), s2)
          else
            (Except.ok (CheckResult.admitted (some (getRateLimitInfo cfg now s2 i))), s2)
        else (Except.ok (CheckResult.admitted none), s2)

/-- Whether a fallible check ended with a propagated store error. -/
def checkFailed (r : Except Unit CheckResult) : Bool :=
  match r with
  | Except.error _ => true
  | Except.ok _ => false

/-- One atomic store operation. Every operation body of the in-memory
store contains no `await` between its cache read and its cache write, so
under the event loop's run-to-completion semantics each invocation
executes as a single atomic step; a batch of concurrent invocations
therefore executes as SOME sequential schedule of these steps. `count`
and `getAll` leave the state unchanged. -/
inductive StoreOp where
  | addOp (timestamp : Int) (identifier : String)
  | cleanupOp (cutoff : Int) (identifier : String)
  | countOp (identifier : String)
  | getAllOp (identifier : String)
deriving Repr, DecidableEq

/-- Effect of one atomic store operation on the store state. -/
def applyOp (s : InMemoryStore) : StoreOp → InMemoryStore
  | .addOp t i => s.add t i
  | .cleanupOp c i => s.cleanup c i
  | .countOp _ => s
  | .getAllOp _ => s

/-- Execution of one interleaving (schedule) of concurrently issued store
operations. -/
def runSchedule (s : InMemoryStore) (ops : List StoreOp) : InMemoryStore :=
  ops.foldl applyOp s

/-- Configuration of the dynamic-parameter engine variant: `maxRequests`
and `windowMs` may each be a per-request resolver function. A resolver is
modelled as a call-indexed oracle (`n ↦` value returned by its `n`-th
invocation within the run), so an invocation count is observable; a plain
value corresponds to a constant oracle. -/
structure DynConfig where
  maxRequestsAt : Nat → Int
  windowMsAt : Nat → Int
  includeHeaders : Bool
  hasCallback : Bool

/-- How often each resolver has been invoked so far. -/
structure ResState where
  maxCalls : Nat
  winCalls : Nat
deriving Repr, DecidableEq

/-- `resolveMaxRequests(opts)` from the dynamic engine: returns the
resolver's next value and bumps its invocation count. -/
def resolveMaxRequests (cfg : DynConfig) (r : ResState) : Int × ResState :=
  (cfg.maxRequestsAt r.maxCalls, { r with maxCalls := r.maxCalls + 1 })

/-- `resolveWindowMs(opts)` from the dynamic engine. -/
def resolveWindowMs (cfg : DynConfig) (r : ResState) : Int × ResState :=
  (cfg.windowMsAt r.winCalls, { r with winCalls := r.winCalls + 1 })

/-- `cleanupOldRequests` of the dynamic engine: resolves `windowMs`, then
cleans with `cutoff = now - windowMs`. -/
def cleanupOldRequestsD (cfg : DynConfig) (now : Int) (s : InMemoryStore)
    (i : String) (r : ResState) : InMemoryStore × ResState :=
  let w := resolveWindowMs cfg r
  (s.cleanup (now - w.1) i, w.2)

/-- `isRateLimited` of the dynamic engine: cleanup (resolving `windowMs`),
count, resolve `maxRequests`, compare. -/
def isRateLimitedD (cfg : DynConfig) (now : Int) (s : InMemoryStore)
    (i : String) (r : ResState) : Bool × InMemoryStore × ResState :=
  let c := cleanupOldRequestsD cfg now s i r
  let m := resolveMaxRequests cfg c.2
  (decide ((c.1.count i : Int) + 1 > m.1), c.1, m.2)

/-- `getRateLimitInfo` of the dynamic engine: resolves `maxRequests` and
`windowMs` again for the metadata. -/
def getRateLimitInfoD (cfg : DynConfig) (now : Int) (s : InMemoryStore)
    (i : String) (r : ResState) : RateLimitInfo × ResState :=
  let m := resolveMaxRequests cfg r
  let w := resolveWindowMs cfg m.2
  let currentCount : Int := s.count i
  let remaining := max 0 (m.1 - currentCount)
  let reset : Int :=
    match getOldestTimestamp s i with
    | some oldest =>
      if oldest = 0 then ceilDiv1000 (now + w.1)
      else ceilDiv1000 (oldest + w.1)
    | none => ceilDiv1000 (now + w.1)
  ({ limit := m.1, remaining := remaining, reset := reset }, w.2)

/-- `checkRateLimit` of the dynamic engine: the deny branch resolves both
parameters again for the notification payload and the message; the admit
branch records the request and, with headers enabled, resolves both again
inside `getRateLimitInfo`. -/
def checkRateLimitD (cfg : DynConfig) (now : Int) (s : InMemoryStore)
    (i : String) (r : ResState) : CheckResult × InMemoryStore × ResState :=
  let q := isRateLimitedD cfg now s i r
  if q.1 then
    let m := resolveMaxRequests cfg q.2.2
    let w := resolveWindowMs cfg m.2
    let currentCount : Int := q.2.1.count i
    let notified :=
      if cfg.hasCallback then
        some { maxRequests := m.1, windowMs := w.1,
               currentRequests := currentCount, identifier := i }
      else (none : Option DenialPayload)
    let err : DenialError :=
      { message := "Rate limit exceeded: " ++ toString m.1
          ++ " requests per " ++ toString w.1 ++ "ms",
        code := "RATE_LIMIT_EXCEEDED", statusCode := 429, identifier := i }
    (CheckResult.denied err notified, q.2.1, w.2)
  else
    let s2 := recordRequest now q.2.1 i
    if cfg.includeHeaders then
      let info := getRateLimitInfoD cfg now s2 i q.2.2
      (CheckResult.admitted (some info.1), s2, info.2)
    else (CheckResult.admitted none, s2, q.2.2)

/-- JS `x || d` for an integer-valued-or-absent option: the number `0`
and an absent value (`none`, JS `undefined`) are falsy and yield the
default. -/
def jsOrInt (x : Option Int) (d : Int) : Int :=
  match x with
  | none => d
  | some v => if v = 0 then d else v

/-- JS `x || d` for a string-valued-or-absent option: the empty string
and an absent value are falsy and yield the default. -/
def jsOrString (x : Option String) (d : String) : String :=
  match x with
  | none => d
  | some v => if v = "" then d else v

/-- An opaque connection handle for the shared (Redis-backed) store. -/
structure RedisClient where
  handle : Nat
deriving Repr, DecidableEq

/-- The state a shared-store instance holds after construction. -/
structure RedisStoreRec where
  client : RedisClient
  keyPref : String
  ttlSeconds : Int
deriving Repr, DecidableEq

/-- The `RedisStore` constructor from `lib/store/redis.js`: it validates
the connection handle — `if (!redis) throw new Error(...)` with message
`Redis client is required` — and otherwise stores the client and defaults
`keyPrefix` to `ratelimit:` and `ttl` to 3600 seconds with JS `||` (an
absent or non-numeric ttl argument is modelled as `none`; the per-process
instance id and member counter play no role in construction validity and
are not carried). -/
def redisStoreNew (client : Option RedisClient) (keyPrefOpt : Option String)
    (ttlOpt : Option Int) : Except String RedisStoreRec :=
  match client with
  | none => Except.error "Redis client is required"
  | some c =>
    Except.ok { client := c, keyPref := jsOrString keyPrefOpt "ratelimit:",
                ttlSeconds := jsOrInt ttlOpt 3600 }

/-- The constructor options of the interceptor (`options`), with `none`
for an omitted (JS `undefined`) entry. `hasCallback` records whether an
`onRateLimitExceeded` sink was passed. -/
structure OptionsRec where
  maxRequests : Option Int
  windowMs : Option Int
  maxIdentifiers : Option Int
  includeHeaders : Option Bool
  hasCallback : Bool
  redis : Option RedisClient
  redisKeyPref : Option String
deriving Repr, DecidableEq

/-- The store a constructed interceptor ends up with: the in-memory store
(with its LRU capacity and ttl arguments) or a shared store instance. -/
inductive StoreChoice where
  | memory (maxIds : Int) (ttlMsArg : Option Int)
  | redisStore (st : RedisStoreRec)
deriving Repr, DecidableEq

/-- A constructed `RateLimiterInterceptor`. -/
structure Interceptor where
  maxRequests : Int
  windowMs : Int
  includeHeaders : Bool
  hasCallback : Bool
  store : StoreChoice
deriving Repr, DecidableEq

/-- The `RateLimiterInterceptor` constructor from `index.js`. Defaults go
through JS `||` (`maxRequests || 100`, `windowMs || 60000`,
`maxIdentifiers || 10000`), while `includeHeaders` uses an explicit
`!== undefined` test. Both store ttl arguments are computed from the RAW
option `options.windowMs` — `windowMs * 2` for the memory store and
`Math.ceil(windowMs / 1000) * 2` for the shared store — so an omitted
`windowMs` makes them the non-number `NaN`, modelled as `none`. A throw
from the shared store's constructor propagates (construction-time
failure). -/
def interceptorNew (o : OptionsRec) : Except String Interceptor :=
  let maxRequests := jsOrInt o.maxRequests 100
  let windowMs := jsOrInt o.windowMs 60000
  let includeHeaders := o.includeHeaders.getD true
  match o.redis with
  | some c =>
    (redisStoreNew (some c) (some (jsOrString o.redisKeyPref "ratelimit:"))
        (o.windowMs.map (fun w => ceilDiv1000 w * 2))).map
      (fun st =>
        { maxRequests := maxRequests, windowMs := windowMs,
          includeHeaders := includeHeaders, hasCallback := o.hasCallback,
          store := StoreChoice.redisStore st })
  | none =>
    Except.ok
      { maxRequests := maxRequests, windowMs := windowMs,
        includeHeaders := includeHeaders, hasCallback := o.hasCallback,
        store := StoreChoice.memory (jsOrInt o.maxIdentifiers 10000)
          (o.windowMs.map (fun w => w * 2)) }

/-- The whole-window check sequence used for the admit/deny boundary:
`runChecks cfg now i n` is the store after `n` sequential checks for the
same identifier issued at the same instant `now`, starting from an empty
store. -/
def runChecks (cfg : Config) (now : Int) (i : String) : Nat → InMemoryStore
  | 0 => InMemoryStore.emptyStore
  | n + 1 => (checkRateLimit cfg now (runChecks cfg now i n) i).2

theorem isRateLimited_eq (cfg : Config) (now : Int) (s : InMemoryStore)
    (i : String) :
    isRateLimited cfg now s i
      = (decide (((s.cleanup (now - cfg.windowMs) i).count i : Int) + 1
            > cfg.maxRequests),
         s.cleanup (now - cfg.windowMs) i) := rfl

theorem cacheGet_cacheSet_self (c : Cache) (i : String) (v : List Int) :
    cacheGet (cacheSet c i v) i = some v := by
  induction c with
  | nil => simp [cacheSet, cacheGet]
  | cons hd rest ih =>
    obtain ⟨k, w⟩ := hd
    by_cases h : k = i
    · simp [cacheSet, cacheGet, h]
    · simp [cacheSet, cacheGet, h, ih]

theorem cacheGet_cacheSet_ne (c : Cache) (i j : String) (v : List Int)
    (h : j ≠ i) : cacheGet (cacheSet c i v) j = cacheGet c j := by
  have h' : ¬ i = j := fun hh => h hh.symm
  induction c with
  | nil => simp [cacheSet, cacheGet, h']
  | cons hd rest ih =>
    obtain ⟨k, w⟩ := hd
    by_cases hk : k = i
    · subst hk
      simp [cacheSet, cacheGet, h']
    · by_cases hkj : k = j
      · simp [cacheSet, cacheGet, hk, hkj, h]
      · simp [cacheSet, cacheGet, hk, hkj, ih]

theorem cacheGet_cacheDelete_self (c : Cache) (i : String) :
    cacheGet (cacheDelete c i) i = none := by
  induction c with
  | nil => simp [cacheDelete, cacheGet]
  | cons hd rest ih =>
    obtain ⟨k, w⟩ := hd
    by_cases h : k = i
    · simp [cacheDelete, cacheGet, h, ih]
    · simp [cacheDelete, cacheGet, h, ih]

theorem cacheGet_cacheDelete_ne (c : Cache) (i j : String) (h : j ≠ i) :
    cacheGet (cacheDelete c i) j = cacheGet c j := by
  have h' : ¬ i = j := fun hh => h hh.symm
  induction c with
  | nil => simp [cacheDelete]
  | cons hd rest ih =>
    obtain ⟨k, w⟩ := hd
    by_cases hk : k = i
    · subst hk
      simp [cacheDelete, cacheGet, h', ih]
    · by_cases hkj : k = j
      · simp [cacheDelete, cacheGet, hk, hkj, h]
      · simp [cacheDelete, cacheGet, hk, hkj, ih]

theorem getAll_add_self (s : InMemoryStore) (t : Int) (i : String) :
    (s.add t i).getAll i = s.getAll i ++ [t] := by
  simp [InMemoryStore.add, InMemoryStore.getAll, cacheGet_cacheSet_self]

theorem getAll_add_ne (s : InMemoryStore) (t : Int) (i j : String)
    (h : j ≠ i) : (s.add t i).getAll j = s.getAll j := by
  simp [InMemoryStore.add, InMemoryStore.getAll, cacheGet_cacheSet_ne _ _ _ _ h]

theorem getAll_cleanup_self (s : InMemoryStore) (cutoff : Int) (i : String) :
    (s.cleanup cutoff i).getAll i
      = (s.getAll i).filter (fun t => decide (cutoff < t)) := by
  unfold InMemoryStore.cleanup
  cases hg : cacheGet s.cache i with
  | none => simp [InMemoryStore.getAll, hg]
  | some requests =>
    by_cases hlen : 0 < (requests.filter (fun t => decide (cutoff < t))).length
    · simp [InMemoryStore.getAll, hg, hlen, cacheGet_cacheSet_self]
    · have hnil : requests.filter (fun t => decide (cutoff < t)) = [] := by
        cases hf : requests.filter (fun t => decide (cutoff < t)) with
        | nil => rfl
        | cons a l => rw [hf] at hlen; simp at hlen
      simp [InMemoryStore.getAll, hg, hlen, hnil, cacheGet_cacheDelete_self]

theorem getAll_cleanup_ne (s : InMemoryStore) (cutoff : Int) (i j : String)
    (h : j ≠ i) : (s.cleanup cutoff i).getAll j = s.getAll j := by
  unfold InMemoryStore.cleanup
  cases hg : cacheGet s.cache i with
  | none => rfl
  | some requests =>
    by_cases hlen : 0 < (requests.filter (fun t => decide (cutoff < t))).length
    · simp [InMemoryStore.getAll, hlen, cacheGet_cacheSet_ne _ _ _ _ h]
    · simp [InMemoryStore.getAll, hlen, cacheGet_cacheDelete_ne _ _ _ h]

theorem count_eq_length_getAll (s : InMemoryStore) (i : String) :
    s.count i = (s.getAll i).length := rfl

theorem hasKey_cleanup_of_filter_nil (s : InMemoryStore) (cutoff : Int)
    (i : String)
    (h : (s.getAll i).filter (fun t => decide (cutoff < t)) = []) :
    (s.cleanup cutoff i).hasKey i = false := by
  unfold InMemoryStore.cleanup
  cases hg : cacheGet s.cache i with
  | none => simp [InMemoryStore.hasKey, hg]
  | some requests =>
    have hreq : s.getAll i = requests := by simp [InMemoryStore.getAll, hg]
    rw [hreq] at h
    simp [InMemoryStore.hasKey, hg, h, cacheGet_cacheDelete_self]

/-- C2: window correctness of cleanup (strict cutoff). After
`cleanup(cutoff, id)` the store holds for `id` exactly the previously
stored timestamps strictly greater than the cutoff (a timestamp equal to
the cutoff is removed), and when no timestamp survives the identifier's
entry is removed entirely, so its count is 0 and `getAll` is empty. -/
theorem cleanup_window_correct (s : InMemoryStore) (cutoff : Int) (i : String) :
    (s.cleanup cutoff i).getAll i
        = (s.getAll i).filter (fun t => decide (cutoff < t))
    ∧ (∀ t ∈ (s.cleanup cutoff i).getAll i, cutoff < t ∧ t ≠ cutoff)
    ∧ ((s.getAll i).filter (fun t => decide (cutoff < t)) = [] →
        (s.cleanup cutoff i).hasKey i = false
        ∧ (s.cleanup cutoff i).count i = 0
        ∧ (s.cleanup cutoff i).getAll i = []) := by
  refine ⟨getAll_cleanup_self s cutoff i, ?_, ?_⟩
  · intro t ht
    rw [getAll_cleanup_self s cutoff i] at ht
    have := List.of_mem_filter ht
    have hlt : cutoff < t := by simpa using this
    exact ⟨hlt, fun he => by simp [he] at hlt⟩
  · intro h
    refine ⟨hasKey_cleanup_of_filter_nil s cutoff i h, ?_, ?_⟩
    · rw [count_eq_length_getAll, getAll_cleanup_self s cutoff i, h]
      rfl
    · rw [getAll_cleanup_self s cutoff i, h]

/-- C2 witness: a concrete run of `cleanup` exercising both conjuncts,
including the boundary timestamp equal to the cutoff. -/
theorem cleanup_window_correct_witness :
    ((InMemoryStore.cleanup ⟨[("id", [1, 5, 5, 9])]⟩ 5 "id").getAll "id" = [9])
    ∧ ((InMemoryStore.cleanup ⟨[("id", [1, 5])]⟩ 5 "id").hasKey "id" = false) := by
  constructor
  · have h := (cleanup_window_correct ⟨[("id", [1, 5, 5, 9])]⟩ 5 "id").1
    rw [h]
    rfl
  · have h := (cleanup_window_correct ⟨[("id", [1, 5])]⟩ 5 "id").2.2
    exact (h (by rfl)).1

theorem getRateLimitInfo_remaining (cfg : Config) (now : Int)
    (s : InMemoryStore) (i : String) :
    (getRateLimitInfo cfg now s i).remaining
      = max 0 (cfg.maxRequests - (s.count i : Int)) := rfl

theorem getRateLimitInfo_limit (cfg : Config) (now : Int)
    (s : InMemoryStore) (i : String) :
    (getRateLimitInfo cfg now s i).limit = cfg.maxRequests := rfl

theorem checkRateLimit_of_limited (cfg : Config) (now : Int)
    (s : InMemoryStore) (i : String)
    (h : (isRateLimited cfg now s i).1 = true) :
    checkRateLimit cfg now s i
      = (CheckResult.denied
          { message := rateLimitMessage cfg, code := "RATE_LIMIT_EXCEEDED",
            statusCode := 429, identifier := i }
          (if cfg.hasCallback then
            some { maxRequests := cfg.maxRequests, windowMs := cfg.windowMs,
                   currentRequests := ((isRateLimited cfg now s i).2.count i : Int),
                   identifier := i }
          else none),
         (isRateLimited cfg now s i).2) := by
  simp only [checkRateLimit, h, if_true]

theorem checkRateLimit_of_not_limited (cfg : Config) (now : Int)
    (s : InMemoryStore) (i : String)
    (h : (isRateLimited cfg now s i).1 = false) :
    checkRateLimit cfg now s i
      = (CheckResult.admitted
          (if cfg.includeHeaders then
            some (getRateLimitInfo cfg now
              ((isRateLimited cfg now s i).2.add now i) i)
          else none),
         (isRateLimited cfg now s i).2.add now i) := by
  simp only [checkRateLimit, h, recordRequest, Bool.false_eq_true, if_false]
  cases cfg.includeHeaders <;> simp

theorem cleanup_keeps_replicate (s : InMemoryStore) (i : String) (k : Nat)
    (now w : Int) (hW : 0 < w) (hs : s.getAll i = List.replicate k now) :
    (s.cleanup (now - w) i).getAll i = List.replicate k now := by
  rw [getAll_cleanup_self, hs]
  refine List.filter_eq_self.mpr ?_
  intro a ha
  have ha' : a = now := List.eq_of_mem_replicate ha
  subst ha'
  simp only [decide_eq_true_eq]
  omega

theorem checkRateLimit_admit_step (cfg : Config) (now : Int)
    (s : InMemoryStore) (i : String) (k : Nat)
    (hW : 0 < cfg.windowMs)
    (hs : s.getAll i = List.replicate k now)
    (hk : (k : Int) + 1 ≤ cfg.maxRequests) :
    (checkRateLimit cfg now s i).1.isAdmitted = true
    ∧ (checkRateLimit cfg now s i).2.getAll i = List.replicate (k + 1) now := by
  have hclean := cleanup_keeps_replicate s i k now cfg.windowMs hW hs
  have hcount : ((s.cleanup (now - cfg.windowMs) i).count i : Int) = (k : Int) := by
    rw [count_eq_length_getAll, hclean, List.length_replicate]
  have hlim : (isRateLimited cfg now s i).1 = false := by
    rw [isRateLimited_eq]
    simp only [decide_eq_false_iff_not, not_lt]
    rw [hcount]
    exact hk
  rw [checkRateLimit_of_not_limited cfg now s i hlim]
  constructor
  · cases cfg.includeHeaders <;> simp [CheckResult.isAdmitted]
  · have hs2 : (isRateLimited cfg now s i).2 = s.cleanup (now - cfg.windowMs) i := by
      rw [isRateLimited_eq]
    rw [hs2, getAll_add_self, hclean, ← List.replicate_succ']

theorem runChecks_getAll (cfg : Config) (now : Int) (i : String) (L : Nat)
    (hW : 0 < cfg.windowMs) (hL : cfg.maxRequests = (L : Int)) :
    ∀ k, k ≤ L → (runChecks cfg now i k).getAll i = List.replicate k now := by
  intro k
  induction k with
  | zero => intro _; rfl
  | succ n ih =>
    intro hn
    have hgn := ih (Nat.le_of_succ_le hn)
    have hkk : (n : Int) + 1 ≤ cfg.maxRequests := by
      rw [hL]
      exact_mod_cast hn
    have hstep := checkRateLimit_admit_step cfg now (runChecks cfg now i n) i n
      hW hgn hkk
    exact hstep.2

/-- C1: admit/deny boundary. A check is denied exactly when
`(count + 1) > limit` holds for the post-cleanup stored count; starting
from an empty window with `limit = L`, each of the first `L` same-window
requests is admitted, the `L`-th admit reports `remaining = 0`, and the
`(L+1)`-th request is denied. -/
theorem admit_deny_boundary (cfg : Config) (now : Int) (i : String) (L : Nat)
    (hW : 0 < cfg.windowMs) (hL : cfg.maxRequests = (L : Int)) (hLpos : 0 < L)
    (hH : cfg.includeHeaders = true) :
    (∀ s : InMemoryStore,
        (checkRateLimit cfg now s i).1.isDenied = true
          ↔ ((s.cleanup (now - cfg.windowMs) i).count i : Int) + 1
              > cfg.maxRequests)
    ∧ (∀ k, k < L →
        (checkRateLimit cfg now (runChecks cfg now i k) i).1.isAdmitted = true)
    ∧ (checkRateLimit cfg now (runChecks cfg now i (L - 1)) i).1.remainingInfo
        = some 0
    ∧ (checkRateLimit cfg now (runChecks cfg now i L) i).1.isDenied = true := by
  have hiff : ∀ s : InMemoryStore,
      (checkRateLimit cfg now s i).1.isDenied = true
        ↔ ((s.cleanup (now - cfg.windowMs) i).count i : Int) + 1
            > cfg.maxRequests := by
    intro s
    by_cases hc : ((s.cleanup (now - cfg.windowMs) i).count i : Int) + 1
        > cfg.maxRequests
    · have hlim : (isRateLimited cfg now s i).1 = true := by
        rw [isRateLimited_eq]
        simpa using hc
      rw [checkRateLimit_of_limited cfg now s i hlim]
      simpa [CheckResult.isDenied] using hc
    · have hlim : (isRateLimited cfg now s i).1 = false := by
        rw [isRateLimited_eq]
        simpa using hc
      rw [checkRateLimit_of_not_limited cfg now s i hlim]
      simp [CheckResult.isDenied, hc]
  refine ⟨hiff, ?_, ?_, ?_⟩
  · intro k hk
    have hg := runChecks_getAll cfg now i L hW hL k (Nat.le_of_lt hk)
    have hkk : (k : Int) + 1 ≤ cfg.maxRequests := by
      rw [hL]
      exact_mod_cast hk
    exact (checkRateLimit_admit_step cfg now (runChecks cfg now i k) i k
      hW hg hkk).1
  · have hg := runChecks_getAll cfg now i L hW hL (L - 1)
      (Nat.sub_le L 1)
    have hkk : ((L - 1 : Nat) : Int) + 1 ≤ cfg.maxRequests := by
      rw [hL]
      have : L - 1 + 1 = L := Nat.succ_pred_eq_of_pos hLpos
      exact_mod_cast Nat.le_of_eq this
    have hlim : (isRateLimited cfg now (runChecks cfg now i (L - 1)) i).1
        = false := by
      rw [isRateLimited_eq]
      simp only [decide_eq_false_iff_not, not_lt]
      rw [count_eq_length_getAll,
        cleanup_keeps_replicate _ i (L - 1) now cfg.windowMs hW hg,
        List.length_replicate]
      exact hkk
    rw [checkRateLimit_of_not_limited cfg now _ i hlim]
    have hs2 : (isRateLimited cfg now (runChecks cfg now i (L - 1)) i).2
        = (runChecks cfg now i (L - 1)).cleanup (now - cfg.windowMs) i := by
      rw [isRateLimited_eq]
    have hga : ((isRateLimited cfg now (runChecks cfg now i (L - 1)) i).2.add
        now i).getAll i = List.replicate L now := by
      rw [hs2, getAll_add_self,
        cleanup_keeps_replicate _ i (L - 1) now cfg.windowMs hW hg,
        ← List.replicate_succ']
      have hLL : L - 1 + 1 = L := by omega
      rw [hLL]
    rw [hH]
    simp only [if_true, ite_true, CheckResult.remainingInfo]
    rw [getRateLimitInfo_remaining, count_eq_length_getAll, hga,
      List.length_replicate, hL]
    simp
  · have hg := runChecks_getAll cfg now i L hW hL L (Nat.le_refl L)
    have hlim : (isRateLimited cfg now (runChecks cfg now i L) i).1 = true := by
      rw [isRateLimited_eq]
      simp only [decide_eq_true_eq]
      rw [count_eq_length_getAll,
        cleanup_keeps_replicate _ i L now cfg.windowMs hW hg,
        List.length_replicate, hL]
      omega
    rw [checkRateLimit_of_limited cfg now _ i hlim]
    rfl

/-- C1 witness: with limit 2 and window 1000 ms, the boundary theorem is
applied at a concrete configuration; its conclusion exhibits the denial
of the third same-window request. -/
theorem admit_deny_boundary_witness :
    (checkRateLimit ⟨2, 1000, true, false⟩ 5000
      (runChecks ⟨2, 1000, true, false⟩ 5000 "id" 2) "id").1.isDenied = true := by
  have h := admit_deny_boundary ⟨2, 1000, true, false⟩ 5000 "id" 2
    (by decide) (by rfl) (by decide) (by rfl)
  exact h.2.2.2

theorem runSchedule_adds (i : String) :
    ∀ (ts : List Int) (s : InMemoryStore),
      (runSchedule s (ts.map (fun t => StoreOp.addOp t i))).getAll i
        = s.getAll i ++ ts := by
  intro ts
  induction ts with
  | nil => intro s; simp [runSchedule]
  | cons t rest ih =>
    intro s
    simp only [List.map_cons, runSchedule, List.foldl_cons] at ih ⊢
    rw [show applyOp s (StoreOp.addOp t i) = s.add t i from rfl, ih (s.add t i),
      getAll_add_self]
    simp

/-- C3: no lost admits in the local store. Every store operation body is
free of suspension points, so a batch of concurrent invocations executes
as some sequential schedule of atomic operations; for EVERY such schedule
consisting of `N` `add` calls for one identifier, the identifier
afterwards holds its previous timestamps followed by all `N` added ones —
none is lost — so its count grows by exactly `N`, and from an empty store
it is exactly `N`. -/
theorem no_lost_admits (ts : List Int) (s : InMemoryStore) (i : String) :
    (runSchedule s (ts.map (fun t => StoreOp.addOp t i))).getAll i
        = s.getAll i ++ ts
    ∧ (runSchedule s (ts.map (fun t => StoreOp.addOp t i))).count i
        = s.count i + ts.length
    ∧ (runSchedule InMemoryStore.emptyStore
        (ts.map (fun t => StoreOp.addOp t i))).count i = ts.length := by
  refine ⟨runSchedule_adds i ts s, ?_, ?_⟩
  · rw [count_eq_length_getAll, runSchedule_adds i ts s, List.length_append,
      count_eq_length_getAll]
  · rw [count_eq_length_getAll, runSchedule_adds i ts InMemoryStore.emptyStore]
    rfl

/-- C5: the deny path. A denied check records nothing (the final store is
exactly the post-cleanup store, whose sequence is the strict-window filter
of the prior one), re-reads the count from that store for the
notification, delivers exactly
`{ maxRequests, windowMs, currentRequests, identifier }` to the sink when
one is configured, and returns the structured denial with code
`RATE_LIMIT_EXCEEDED`, status 429, the identifier, and the message with
the resolved values substituted. -/
theorem deny_path_correct (cfg : Config) (now : Int) (s : InMemoryStore)
    (i : String) (err : DenialError) (notified : Option DenialPayload)
    (h : (checkRateLimit cfg now s i).1 = CheckResult.denied err notified) :
    err.code = "RATE_LIMIT_EXCEEDED"
    ∧ err.statusCode = 429
    ∧ err.identifier = i
    ∧ err.message = "Rate limit exceeded: " ++ toString cfg.maxRequests
        ++ " requests per " ++ toString cfg.windowMs ++ "ms"
    ∧ (checkRateLimit cfg now s i).2 = s.cleanup (now - cfg.windowMs) i
    ∧ (checkRateLimit cfg now s i).2.getAll i
        = (s.getAll i).filter (fun t => decide (now - cfg.windowMs < t))
    ∧ (cfg.hasCallback = true →
        notified = some (DenialPayload.mk cfg.maxRequests cfg.windowMs
          ((checkRateLimit cfg now s i).2.count i : Int) i))
    ∧ (cfg.hasCallback = false → notified = none) := by
  cases hlim : (isRateLimited cfg now s i).1 with
  | false =>
    rw [checkRateLimit_of_not_limited cfg now s i hlim] at h
    exact absurd h (by simp)
  | true =>
    have heq := checkRateLimit_of_limited cfg now s i hlim
    have h1 : (checkRateLimit cfg now s i).1
        = CheckResult.denied
          { message := rateLimitMessage cfg, code := "RATE_LIMIT_EXCEEDED",
            statusCode := 429, identifier := i }
          (if cfg.hasCallback then
            some { maxRequests := cfg.maxRequests, windowMs := cfg.windowMs,
                   currentRequests := ((isRateLimited cfg now s i).2.count i : Int),
                   identifier := i }
          else none) := by rw [heq]
    rw [h] at h1
    have h2 : (checkRateLimit cfg now s i).2 = (isRateLimited cfg now s i).2 := by
      rw [heq]
    have hs1 : (isRateLimited cfg now s i).2 = s.cleanup (now - cfg.windowMs) i := by
      rw [isRateLimited_eq]
    simp only [CheckResult.denied.injEq] at h1
    obtain ⟨herr, hnot⟩ := h1
    refine ⟨?_, ?_, ?_, ?_, ?_, ?_, ?_, ?_⟩
    · rw [herr]
    · rw [herr]
    · rw [herr]
    · rw [herr]; rfl
    · rw [h2, hs1]
    · rw [h2, hs1, getAll_cleanup_self]
    · intro hcb
      rw [hnot, hcb, h2]
      simp
    · intro hcb
      rw [hnot, hcb]
      simp

/-- C5 witness: a concrete denied request (limit 1, one stored in-window
timestamp) applying the deny-path theorem; the final store still holds
exactly the prior in-window timestamp and nothing was recorded. -/
theorem deny_path_correct_witness :
    (checkRateLimit ⟨1, 1000, true, true⟩ 5000 ⟨[("id", [4500])]⟩ "id").2
        = InMemoryStore.cleanup ⟨[("id", [4500])]⟩ (5000 - 1000) "id" := by
  exact (deny_path_correct ⟨1, 1000, true, true⟩ 5000 ⟨[("id", [4500])]⟩ "id"
    ⟨"Rate limit exceeded: 1 requests per 1000ms", "RATE_LIMIT_EXCEEDED",
      429, "id"⟩
    (some ⟨1, 1000, 1, "id"⟩) (by rfl)).2.2.2.2.1

theorem foldl_min_mem (t : Int) (l : List Int) :
    List.foldl min t l = t ∨ List.foldl min t l ∈ l := by
  induction l generalizing t with
  | nil => left; rfl
  | cons a l ih =>
    simp only [List.foldl_cons]
    rcases ih (min t a) with h | h
    · rcases min_choice t a with hm | hm
      · left; rw [h, hm]
      · right; rw [h, hm]; exact List.mem_cons_self a l
    · right; exact List.mem_cons_of_mem a h

theorem getOldestTimestamp_exists (s : InMemoryStore) (i : String)
    (h : s.getAll i ≠ []) :
    ∃ m, getOldestTimestamp s i = some m ∧ m ∈ s.getAll i := by
  unfold getOldestTimestamp
  cases hg : s.getAll i with
  | nil => exact absurd hg h
  | cons t ts =>
    refine ⟨ts.foldl min t, rfl, ?_⟩
    rcases foldl_min_mem t ts with h2 | h2
    · rw [h2]; exact List.mem_cons_self _ _
    · exact List.mem_cons_of_mem _ h2

theorem mem_add_cleanup (s : InMemoryStore) (i : String) (now w t : Int)
    (ht : t ∈ ((s.cleanup (now - w) i).add now i).getAll i) :
    t = now ∨ (t ∈ s.getAll i ∧ now - w < t) := by
  rw [getAll_add_self, getAll_cleanup_self] at ht
  rcases List.mem_append.mp ht with h | h
  · right
    exact ⟨List.mem_of_mem_filter h, by simpa using List.of_mem_filter h⟩
  · left; simpa using h

theorem checkRateLimit_admitted_shape (cfg : Config) (now : Int)
    (s : InMemoryStore) (i : String) (info : RateLimitInfo)
    (h : (checkRateLimit cfg now s i).1 = CheckResult.admitted (some info)) :
    cfg.includeHeaders = true
    ∧ (checkRateLimit cfg now s i).2
        = (s.cleanup (now - cfg.windowMs) i).add now i
    ∧ info = getRateLimitInfo cfg now
        ((s.cleanup (now - cfg.windowMs) i).add now i) i := by
  cases hlim : (isRateLimited cfg now s i).1 with
  | true =>
    rw [checkRateLimit_of_limited cfg now s i hlim] at h
    exact absurd h (by simp)
  | false =>
    have heq := checkRateLimit_of_not_limited cfg now s i hlim
    have hs1 : (isRateLimited cfg now s i).2
        = s.cleanup (now - cfg.windowMs) i := by
      rw [isRateLimited_eq]
    cases hH : cfg.includeHeaders with
    | false =>
      rw [heq, hH] at h
      simp at h
    | true =>
      rw [heq, hH] at h
      simp only [if_true, ite_true, CheckResult.admitted.injEq,
        Option.some.injEq] at h
      refine ⟨rfl, ?_, ?_⟩
      · rw [heq]
        simp only
        rw [hs1]
      · rw [← h, hs1]

theorem getRateLimitInfo_reset_of_oldest (cfg : Config) (now : Int)
    (s : InMemoryStore) (i : String) (m : Int)
    (h : getOldestTimestamp s i = some m) (hm : m ≠ 0) :
    (getRateLimitInfo cfg now s i).reset = ceilDiv1000 (m + cfg.windowMs) := by
  simp [getRateLimitInfo, h, hm]

/-- C6: quota metadata on admit. An admitted check records `now` via
`add` on the post-cleanup store; the returned metadata satisfies
`remaining = max 0 (limit - count-after-add)`; the sequence read back for
the reset is never empty (it contains `now`), and — for positive wall
clock and positive stored timestamps, as produced by `Date.now()` — the
reset equals `ceil((oldest + windowMs) / 1000)` for the minimum stored
timestamp `oldest`. -/
theorem admit_metadata_correct (cfg : Config) (now : Int)
    (s : InMemoryStore) (i : String) (info : RateLimitInfo)
    (h : (checkRateLimit cfg now s i).1 = CheckResult.admitted (some info))
    (hnow : 0 < now) (hts : ∀ t ∈ s.getAll i, 0 < t) :
    (checkRateLimit cfg now s i).2
        = (s.cleanup (now - cfg.windowMs) i).add now i
    ∧ info.remaining
        = max 0 (cfg.maxRequests - ((checkRateLimit cfg now s i).2.count i : Int))
    ∧ info.limit = cfg.maxRequests
    ∧ (checkRateLimit cfg now s i).2.getAll i ≠ []
    ∧ ∃ m, getOldestTimestamp ((checkRateLimit cfg now s i).2) i = some m
        ∧ 0 < m
        ∧ info.reset = ceilDiv1000 (m + cfg.windowMs) := by
  obtain ⟨hH, hfin, hinfo⟩ := checkRateLimit_admitted_shape cfg now s i info h
  have hne : (checkRateLimit cfg now s i).2.getAll i ≠ [] := by
    rw [hfin, getAll_add_self]
    simp
  obtain ⟨m, hm, hmem⟩ := getOldestTimestamp_exists _ i hne
  have hmpos : 0 < m := by
    rw [hfin] at hmem
    rcases mem_add_cleanup s i now cfg.windowMs m hmem with hc | hc
    · omega
    · exact hts m hc.1
  refine ⟨hfin, ?_, ?_, hne, m, hm, hmpos, ?_⟩
  · rw [hinfo, getRateLimitInfo_remaining, hfin]
  · rw [hinfo, getRateLimitInfo_limit]
  · rw [hfin] at hm
    rw [hinfo, getRateLimitInfo_reset_of_oldest cfg now _ i m hm (by omega)]

/-- C6 witness: a concrete admit (limit 2, one in-window timestamp 4500,
now 5000) applying the metadata theorem; the oldest surviving timestamp
4500 determines the reset. -/
theorem admit_metadata_correct_witness :
    ∃ m, getOldestTimestamp
        (checkRateLimit ⟨2, 1000, true, false⟩ 5000 ⟨[("id", [4500])]⟩ "id").2
        "id" = some m
      ∧ 0 < m
      ∧ (6 : Int) = ceilDiv1000 (m + 1000) := by
  have h := admit_metadata_correct ⟨2, 1000, true, false⟩ 5000
    ⟨[("id", [4500])]⟩ "id" ⟨2, 0, 6⟩ (by rfl) (by decide)
    (by intro t ht; simp [InMemoryStore.getAll, cacheGet] at ht; omega)
  exact h.2.2.2.2

/-- C7: reset monotonicity. On an admit (with positive wall clock and
positive stored timestamps), every timestamp surviving the preceding
cleanup is strictly above the cutoff `now - windowMs`, so the reported
reset is at least the current time in seconds; and two admits whose
post-add sequences have the same oldest timestamp report the identical
reset (stability within a still-open window). -/
theorem reset_monotone (cfg : Config) (now1 now2 : Int)
    (s1 s2 : InMemoryStore) (i : String) (info1 info2 : RateLimitInfo)
    (h1 : (checkRateLimit cfg now1 s1 i).1 = CheckResult.admitted (some info1))
    (h2 : (checkRateLimit cfg now2 s2 i).1 = CheckResult.admitted (some info2))
    (hW : 0 < cfg.windowMs) (hn1 : 0 < now1) (hn2 : 0 < now2)
    (ht1 : ∀ t ∈ s1.getAll i, 0 < t) (ht2 : ∀ t ∈ s2.getAll i, 0 < t) :
    now1 / 1000 ≤ info1.reset
    ∧ (getOldestTimestamp ((checkRateLimit cfg now1 s1 i).2) i
          = getOldestTimestamp ((checkRateLimit cfg now2 s2 i).2) i →
        info1.reset = info2.reset) := by
  obtain ⟨hH1, hfin1, hinfo1⟩ := checkRateLimit_admitted_shape cfg now1 s1 i info1 h1
  obtain ⟨hH2, hfin2, hinfo2⟩ := checkRateLimit_admitted_shape cfg now2 s2 i info2 h2
  have hne1 : (checkRateLimit cfg now1 s1 i).2.getAll i ≠ [] := by
    rw [hfin1, getAll_add_self]; simp
  have hne2 : (checkRateLimit cfg now2 s2 i).2.getAll i ≠ [] := by
    rw [hfin2, getAll_add_self]; simp
  obtain ⟨m1, hm1, hmem1⟩ := getOldestTimestamp_exists _ i hne1
  obtain ⟨m2, hm2, hmem2⟩ := getOldestTimestamp_exists _ i hne2
  have hcut1 : now1 - cfg.windowMs < m1 := by
    rw [hfin1] at hmem1
    rcases mem_add_cleanup s1 i now1 cfg.windowMs m1 hmem1 with hc | hc
    · omega
    · exact hc.2
  have hm1pos : 0 < m1 := by
    rw [hfin1] at hmem1
    rcases mem_add_cleanup s1 i now1 cfg.windowMs m1 hmem1 with hc | hc
    · omega
    · exact ht1 m1 hc.1
  have hm2pos : 0 < m2 := by
    rw [hfin2] at hmem2
    rcases mem_add_cleanup s2 i now2 cfg.windowMs m2 hmem2 with hc | hc
    · omega
    · exact ht2 m2 hc.1
  have hr1 : info1.reset = ceilDiv1000 (m1 + cfg.windowMs) := by
    rw [hfin1] at hm1
    rw [hinfo1, getRateLimitInfo_reset_of_oldest cfg now1 _ i m1 hm1 (by omega)]
  have hr2 : info2.reset = ceilDiv1000 (m2 + cfg.windowMs) := by
    rw [hfin2] at hm2
    rw [hinfo2, getRateLimitInfo_reset_of_oldest cfg now2 _ i m2 hm2 (by omega)]
  constructor
  · rw [hr1]
    unfold ceilDiv1000
    have hle : now1 + 1000 ≤ m1 + cfg.windowMs + 999 := by omega
    have hstep : (now1 + 1000) / 1000 = now1 / 1000 + 1 := by
      have hh := Int.add_mul_ediv_right now1 1 (by norm_num : (1000 : Int) ≠ 0)
      simpa using hh
    have := Int.ediv_le_ediv (by norm_num : (0 : Int) < 1000) hle
    omega
  · intro holdest
    rw [hm1, hm2] at holdest
    have : m1 = m2 := by
      injection holdest
    rw [hr1, hr2, this]

/-- C7 witness: two concrete admits sharing the oldest timestamp 4500
(limit 3, window 1000 ms) applying the monotonicity theorem; the first
reset is at least the current time in seconds. -/
theorem reset_monotone_witness :
    (5000 : Int) / 1000 ≤ (6 : Int) := by
  have h := reset_monotone ⟨3, 1000, true, false⟩ 5000 5200
    ⟨[("id", [4500])]⟩ ⟨[("id", [4500, 5000])]⟩ "id" ⟨3, 1, 6⟩ ⟨3, 0, 6⟩
    (by rfl) (by rfl) (by decide) (by decide) (by decide)
    (by intro t ht; simp [InMemoryStore.getAll, cacheGet] at ht; omega)
    (by intro t ht; simp [InMemoryStore.getAll, cacheGet] at ht; rcases ht with h | h <;> omega)
  exact h.1

theorem count_add_self (s : InMemoryStore) (t : Int) (i : String) :
    (s.add t i).count i = s.count i + 1 := by
  rw [count_eq_length_getAll, count_eq_length_getAll, getAll_add_self]
  simp

theorem checkRateLimitF_error_shape (cfg : Config) (now : Int)
    (ff : FailFlags) (s : InMemoryStore) (i : String) (e : Unit)
    (he : (isRateLimitedF cfg now ff s i).1 = Except.error e) :
    checkRateLimitF cfg now ff s i
      = (Except.error e, (isRateLimitedF cfg now ff s i).2) := by
  simp only [checkRateLimitF]
  rw [he]

theorem checkRateLimitF_limited_shape (cfg : Config) (now : Int)
    (ff : FailFlags) (s : InMemoryStore) (i : String)
    (hl : (isRateLimitedF cfg now ff s i).1 = Except.ok true) :
    checkRateLimitF cfg now ff s i
      = (if ff.countFailsDeny then
          (Except.error (), (isRateLimitedF cfg now ff s i).2)
         else
          (Except.ok (CheckResult.denied
            (DenialError.mk (rateLimitMessage cfg) "RATE_LIMIT_EXCEEDED" 429 i)
            (if cfg.hasCallback then
              some (DenialPayload.mk cfg.maxRequests cfg.windowMs
                ((isRateLimitedF cfg now ff s i).2.count i : Int) i)
             else none)),
           (isRateLimitedF cfg now ff s i).2)) := by
  simp only [checkRateLimitF]
  rw [hl]
  rfl

theorem checkRateLimitF_notLimited_shape (cfg : Config) (now : Int)
    (ff : FailFlags) (s : InMemoryStore) (i : String)
    (hl : (isRateLimitedF cfg now ff s i).1 = Except.ok false) :
    checkRateLimitF cfg now ff s i
      = (if ff.addFails then
          (Except.error (), (isRateLimitedF cfg now ff s i).2)
         else
          (if cfg.includeHeaders then
            (if ff.countFailsInfo then
              (Except.error (), (isRateLimitedF cfg now ff s i).2.add now i)
             else if ff.getAllFails then
              (Except.error (), (isRateLimitedF cfg now ff s i).2.add now i)
             else
              (Except.ok (CheckResult.admitted (some (getRateLimitInfo cfg now
                ((isRateLimitedF cfg now ff s i).2.add now i) i))),
               (isRateLimitedF cfg now ff s i).2.add now i))
           else
            (Except.ok (CheckResult.admitted none),
             (isRateLimitedF cfg now ff s i).2.add now i))) := by
  simp only [checkRateLimitF, recordRequest]
  rw [hl]
  rfl

/-- C4 counterexample: with only the metadata `getAll` call failing
(limit 5, window 1000 ms, empty store, headers enabled), the check
propagates an error even though no `count` call and no `add` call failed
— and the admitted timestamp HAS already been recorded when the error
escapes, contradicting the claimed raises-iff and its no-record clause. -/
theorem check_raises_iff_counterexample :
    checkFailed (checkRateLimitF ⟨5, 1000, true, false⟩ 5000
        ⟨false, false, false, false, false, true⟩
        InMemoryStore.emptyStore "id").1 = true
    ∧ (⟨false, false, false, false, false, true⟩ : FailFlags).countFailsDecision
        = false
    ∧ (⟨false, false, false, false, false, true⟩ : FailFlags).countFailsDeny
        = false
    ∧ (⟨false, false, false, false, false, true⟩ : FailFlags).countFailsInfo
        = false
    ∧ (⟨false, false, false, false, false, true⟩ : FailFlags).addFails = false
    ∧ (checkRateLimitF ⟨5, 1000, true, false⟩ 5000
        ⟨false, false, false, false, false, true⟩
        InMemoryStore.emptyStore "id").2.getAll "id" = [5000] := by
  decide

/-- C4 (amended): raises-iff of the per-request check. The check
propagates an error exactly when one of its non-cleanup store calls fails
— the decision `count`, the deny-path `count`, the `add`, or (with
headers enabled, after a successful `add`) the metadata `count`/`getAll`.
A `cleanup` failure is caught: the check proceeds with the store's
current count on the untouched store. A propagated error yields neither
an admit nor a denial outcome. No timestamp is recorded on the failing
check except in the metadata case, where the `add` has already happened
when the error escapes. -/
theorem check_raises_iff (cfg : Config) (now : Int) (ff : FailFlags)
    (s : InMemoryStore) (i : String) :
    (checkFailed (checkRateLimitF cfg now ff s i).1 = true
      ↔ (ff.countFailsDecision = true
        ∨ ((isRateLimitedF cfg now ff s i).1 = Except.ok true
            ∧ ff.countFailsDeny = true)
        ∨ ((isRateLimitedF cfg now ff s i).1 = Except.ok false
            ∧ (ff.addFails = true
              ∨ (cfg.includeHeaders = true
                ∧ (ff.countFailsInfo = true ∨ ff.getAllFails = true))))))
    ∧ (ff.cleanupFails = true → ff.countFailsDecision = false →
        (isRateLimitedF cfg now ff s i).1
            = Except.ok (decide ((s.count i : Int) + 1 > cfg.maxRequests))
        ∧ (isRateLimitedF cfg now ff s i).2 = s)
    ∧ (checkFailed (checkRateLimitF cfg now ff s i).1 = true →
        ∀ r : CheckResult, (checkRateLimitF cfg now ff s i).1 ≠ Except.ok r)
    ∧ (ff.countFailsDecision = true →
        (checkRateLimitF cfg now ff s i).2 = (isRateLimitedF cfg now ff s i).2)
    ∧ ((isRateLimitedF cfg now ff s i).1 = Except.ok true →
        (checkRateLimitF cfg now ff s i).2 = (isRateLimitedF cfg now ff s i).2)
    ∧ ((isRateLimitedF cfg now ff s i).1 = Except.ok false →
        ff.addFails = true →
        (checkRateLimitF cfg now ff s i).2 = (isRateLimitedF cfg now ff s i).2)
    ∧ ((isRateLimitedF cfg now ff s i).1 = Except.ok false →
        ff.addFails = false → cfg.includeHeaders = true →
        (ff.countFailsInfo = true ∨ ff.getAllFails = true) →
        checkFailed (checkRateLimitF cfg now ff s i).1 = true
        ∧ (checkRateLimitF cfg now ff s i).2
            = (isRateLimitedF cfg now ff s i).2.add now i) := by
  refine ⟨?_, ?_, ?_, ?_, ?_, ?_, ?_⟩
  · cases hfc : ff.countFailsDecision with
    | true =>
      have he : (isRateLimitedF cfg now ff s i).1 = Except.error () := by
        simp [isRateLimitedF, hfc]
      rw [checkRateLimitF_error_shape cfg now ff s i () he]
      simp [checkFailed]
    | false =>
      have hok : (isRateLimitedF cfg now ff s i).1
          = Except.ok (decide (((cleanupOldRequestsF cfg now ff s i).count i : Int)
              + 1 > cfg.maxRequests)) := by
        simp [isRateLimitedF, hfc]
      cases hlim : decide (((cleanupOldRequestsF cfg now ff s i).count i : Int)
          + 1 > cfg.maxRequests) with
      | true =>
        rw [hlim] at hok
        rw [checkRateLimitF_limited_shape cfg now ff s i hok, hok]
        cases hfd : ff.countFailsDeny <;> simp [checkFailed, hfd]
      | false =>
        rw [hlim] at hok
        rw [checkRateLimitF_notLimited_shape cfg now ff s i hok, hok]
        cases hfa : ff.addFails with
        | true => simp [checkFailed, hfa]
        | false =>
          cases hH : cfg.includeHeaders with
          | false => simp [checkFailed, hfa, hH]
          | true =>
            cases hf3 : ff.countFailsInfo with
            | true => simp [checkFailed, hfa, hH, hf3]
            | false =>
              cases hfg : ff.getAllFails <;>
                simp [checkFailed, hfa, hH, hf3, hfg]
  · intro hcf hfc
    constructor
    · simp [isRateLimitedF, hfc, cleanupOldRequestsF, hcf]
    · simp [isRateLimitedF, cleanupOldRequestsF, hcf, hfc]
  · intro herr r
    intro hok
    rw [hok] at herr
    simp [checkFailed] at herr
  · intro hfc
    have he : (isRateLimitedF cfg now ff s i).1 = Except.error () := by
      simp [isRateLimitedF, hfc]
    rw [checkRateLimitF_error_shape cfg now ff s i () he]
  · intro hok
    rw [checkRateLimitF_limited_shape cfg now ff s i hok]
    cases hfd : ff.countFailsDeny <;> simp [hfd]
  · intro hok hfa
    rw [checkRateLimitF_notLimited_shape cfg now ff s i hok]
    simp [hfa]
  · intro hok hfa hH hfail
    rw [checkRateLimitF_notLimited_shape cfg now ff s i hok]
    rcases hfail with hf | hf
    · simp [hfa, hH, hf, checkFailed]
    · cases hf3 : ff.countFailsInfo <;> simp [hfa, hH, hf, hf3, checkFailed]

/-- C4 witness: the amended raises-iff applied at a concrete failing
input (decision `count` failing on an empty store): the check propagates
the error. -/
theorem check_raises_iff_witness :
    checkFailed (checkRateLimitF ⟨5, 1000, true, false⟩ 5000
        ⟨false, true, false, false, false, false⟩
        InMemoryStore.emptyStore "id").1 = true := by
  have h := check_raises_iff ⟨5, 1000, true, false⟩ 5000
    ⟨false, true, false, false, false, false⟩ InMemoryStore.emptyStore "id"
  exact h.1.mpr (Or.inl (by rfl))

/-- C8 counterexample: with a window resolver answering 1000 on its first
invocation and 500000 on its second (and a constant limit of 5), a single
admit-with-headers check starting from fresh resolver counters invokes
the window resolver TWICE, not once: the cleanup cutoff uses the first
resolution (1000) while the reset in the metadata uses the second
(500000), giving reset 510 where a single resolution would give 11. -/
theorem single_resolution_counterexample :
    (checkRateLimitD
        ⟨fun _ => 5, fun n => if n = 0 then 1000 else 500000, true, false⟩
        10000 InMemoryStore.emptyStore "id" ⟨0, 0⟩).2.2 = ⟨2, 2⟩
    ∧ (checkRateLimitD
        ⟨fun _ => 5, fun n => if n = 0 then 1000 else 500000, true, false⟩
        10000 InMemoryStore.emptyStore "id" ⟨0, 0⟩).1
      = CheckResult.admitted (some ⟨5, 4, 510⟩) := by
  constructor
  · rfl
  · rfl

/-- C8 (amended): each dynamic parameter resolver is invoked twice per
check on the deny path and on the admit-with-headers path (once on the
admit-without-headers path) — not exactly once — resolving once in the
decision phase and again for the denial payload or the quota metadata;
when both resolvers are constant the two resolutions coincide and the
dynamic check computes exactly the result and store of the static engine
with those values. -/
theorem single_resolution_amended (cfg : DynConfig) (now : Int)
    (s : InMemoryStore) (i : String) :
    ((checkRateLimitD cfg now s i ⟨0, 0⟩).1.isDenied = true →
        (checkRateLimitD cfg now s i ⟨0, 0⟩).2.2 = ⟨2, 2⟩)
    ∧ ((checkRateLimitD cfg now s i ⟨0, 0⟩).1.isAdmitted = true →
        (checkRateLimitD cfg now s i ⟨0, 0⟩).2.2
          = (if cfg.includeHeaders then (⟨2, 2⟩ : ResState) else ⟨1, 1⟩))
    ∧ (∀ L W : Int,
        (∀ n, cfg.maxRequestsAt n = L) → (∀ n, cfg.windowMsAt n = W) →
        (checkRateLimitD cfg now s i ⟨0, 0⟩).1
            = (checkRateLimit ⟨L, W, cfg.includeHeaders, cfg.hasCallback⟩ now s i).1
        ∧ (checkRateLimitD cfg now s i ⟨0, 0⟩).2.1
            = (checkRateLimit ⟨L, W, cfg.includeHeaders, cfg.hasCallback⟩ now s i).2) := by
  refine ⟨?_, ?_, ?_⟩
  · intro hden
    cases hb : decide (((s.cleanup (now - cfg.windowMsAt 0) i).count i : Int) + 1
        > cfg.maxRequestsAt 0) with
    | false =>
      exfalso
      revert hden
      simp [checkRateLimitD, isRateLimitedD, cleanupOldRequestsD,
        resolveWindowMs, resolveMaxRequests, hb]
      cases cfg.includeHeaders <;> simp [CheckResult.isDenied]
    | true =>
      simp [checkRateLimitD, isRateLimitedD, cleanupOldRequestsD,
        resolveWindowMs, resolveMaxRequests, hb]
  · intro hadm
    cases hb : decide (((s.cleanup (now - cfg.windowMsAt 0) i).count i : Int) + 1
        > cfg.maxRequestsAt 0) with
    | true =>
      exfalso
      revert hadm
      simp [checkRateLimitD, isRateLimitedD, cleanupOldRequestsD,
        resolveWindowMs, resolveMaxRequests, hb, CheckResult.isAdmitted]
    | false =>
      cases hH : cfg.includeHeaders <;>
        simp [checkRateLimitD, isRateLimitedD, cleanupOldRequestsD,
          resolveWindowMs, resolveMaxRequests, getRateLimitInfoD, hb, hH]
  · intro L W hL hW
    cases hb : decide (((s.cleanup (now - W) i).count i : Int) + 1 > L) with
    | true =>
      constructor <;>
        simp [checkRateLimitD, isRateLimitedD, cleanupOldRequestsD,
          resolveWindowMs, resolveMaxRequests, checkRateLimit, isRateLimited,
          cleanupOldRequests, rateLimitMessage, hL, hW, hb]
    | false =>
      cases hH : cfg.includeHeaders <;> constructor <;>
        simp [checkRateLimitD, isRateLimitedD, cleanupOldRequestsD,
          resolveWindowMs, resolveMaxRequests, getRateLimitInfoD,
          checkRateLimit, isRateLimited, cleanupOldRequests, recordRequest,
          getRateLimitInfo, rateLimitMessage, hL, hW, hb, hH]

/-- C8 witness: the amended theorem applied to a concrete constant
configuration (limit 3, window 1000 ms): the dynamic engine's decision
on an empty store matches the static engine's. -/
theorem single_resolution_amended_witness :
    (checkRateLimitD ⟨fun _ => 3, fun _ => 1000, true, false⟩ 5000
        InMemoryStore.emptyStore "id" ⟨0, 0⟩).1
      = (checkRateLimit ⟨3, 1000, true, false⟩ 5000
        InMemoryStore.emptyStore "id").1 := by
  exact ((single_resolution_amended
    ⟨fun _ => 3, fun _ => 1000, true, false⟩ 5000
    InMemoryStore.emptyStore "id").2.2 3 1000
    (fun _ => rfl) (fun _ => rfl)).1

/-- C9: configuration errors are construction-time. Constructing the
shared store without a connection handle is a fatal construction-time
error (`Redis client is required`); the interceptor constructor without
a `redis` option always yields the memory store, and with one always
yields a shared store holding that very client — so no request is ever
checked against a shared store lacking its connection handle. -/
theorem config_error_construction_time :
    (∀ (p : Option String) (t : Option Int),
        redisStoreNew none p t = Except.error "Redis client is required")
    ∧ (∀ o : OptionsRec, o.redis = none →
        ∃ intr, interceptorNew o = Except.ok intr
          ∧ ∃ maxIds ttlArg, intr.store = StoreChoice.memory maxIds ttlArg)
    ∧ (∀ (o : OptionsRec) (c : RedisClient), o.redis = some c →
        ∃ intr, interceptorNew o = Except.ok intr
          ∧ ∃ kp ttl, intr.store = StoreChoice.redisStore ⟨c, kp, ttl⟩) := by
  refine ⟨fun p t => rfl, ?_, ?_⟩
  · intro o ho
    refine ⟨{ maxRequests := jsOrInt o.maxRequests 100,
              windowMs := jsOrInt o.windowMs 60000,
              includeHeaders := o.includeHeaders.getD true,
              hasCallback := o.hasCallback,
              store := StoreChoice.memory (jsOrInt o.maxIdentifiers 10000)
                (o.windowMs.map (fun w => w * 2)) }, ?_, _, _, rfl⟩
    simp [interceptorNew, ho]
  · intro o c ho
    refine ⟨{ maxRequests := jsOrInt o.maxRequests 100,
              windowMs := jsOrInt o.windowMs 60000,
              includeHeaders := o.includeHeaders.getD true,
              hasCallback := o.hasCallback,
              store := StoreChoice.redisStore
                ⟨c, jsOrString (some (jsOrString o.redisKeyPref "ratelimit:"))
                    "ratelimit:",
                  jsOrInt (o.windowMs.map (fun w => ceilDiv1000 w * 2)) 3600⟩ },
      ?_, _, _, rfl⟩
    simp [interceptorNew, ho, redisStoreNew, Except.map]

/-- C9 witness: the construction theorem applied at concrete inputs — the
client-less shared-store construction errors, and an interceptor built
with a client holds a shared store with that client. -/
theorem config_error_construction_time_witness :
    redisStoreNew none none none = Except.error "Redis client is required"
    ∧ ∃ intr, interceptorNew ⟨none, some 60000, none, none, false,
        some ⟨7⟩, none⟩ = Except.ok intr
      ∧ ∃ kp ttl, intr.store = StoreChoice.redisStore ⟨⟨7⟩, kp, ttl⟩ := by
  exact ⟨config_error_construction_time.1 none none,
    config_error_construction_time.2.2
      ⟨none, some 60000, none, none, false, some ⟨7⟩, none⟩ ⟨7⟩ rfl⟩

end RateLimit
